import Mathlib

/-!
A shallow embedding of the core logic of `src/src/App.jsx` (the
`handleSearch` handler of the Pain Points Finder app): request building,
response normalization, and the submit-time state transitions.

JSON values decoded from a response body are modelled by the inductive
`Json`.  JavaScript `undefined` (a missing field) is modelled by `none`
in `Option Json`; `Json.null` models JSON `null`.  Numbers are modelled
by `Int` (no claim under verification depends on non-integer numerics).
-/

namespace PainPoints

inductive Json where
  | null : Json
  | bool : Bool → Json
  | num : Int → Json
  | str : String → Json
  | arr : List Json → Json
  | obj : List (String × Json) → Json

/-- The TypeError thrown by a property access on a null receiver;
`reading` records the property name being read (the engine-specific
message text is abstracted by an oracle where it surfaces). -/
structure TypeError where
  reading : String
deriving DecidableEq

namespace Json

/-- JavaScript property access `v.k` on a possibly-null receiver: a
TypeError when `v` is null, a lookup on an object, `undefined` (`none`)
on any other value (none of the accessed names is a built-in property
of strings or arrays in the source). -/
def read : Json → String → Except TypeError (Option Json)
  | .null, k => .error ⟨k⟩
  | .obj fs, k => .ok (fs.lookup k)
  | _, _ => .ok none

/-- JavaScript optional-chained access `v?.k` (used verbatim at App.jsx
line 88): `undefined` instead of a throw when `v` is null.  It also
equals the plain access `v.k` whenever `v` is non-null, which holds at
every other use site below: each such receiver is dominated by a
truthiness guard (null is falsy) or by an earlier successful
`Json.read` on the same value. -/
def lookupField : Json → String → Option Json
  | .obj fs, k => fs.lookup k
  | _, _ => none

/-- JavaScript indexing `v[0]`, as used in `data.choices[0]`: first
element of an array, the `"0"` property of an object, the first
character of a string, `undefined` otherwise.  Its receiver is always
truthiness-guarded (line 117), hence never null, so no throwing case
arises. -/
def index0 : Json → Option Json
  | .arr xs => xs.head?
  | .obj fs => fs.lookup "0"
  | .str s =>
    match s.data with
    | [] => none
    | c :: _ => some (.str (String.mk [c]))
  | _ => none

end Json

/-- JavaScript truthiness of a possibly-undefined value: `undefined`,
`null`, `false`, `0` and `""` are falsy; every other value (including
empty arrays and empty objects) is truthy. -/
def jsTruthy : Option Json → Bool
  | none => false
  | some .null => false
  | some (.bool b) => b
  | some (.num n) => n != 0
  | some (.str s) => s != ""
  | some (.arr _) => true
  | some (.obj _) => true

mutual

/-- JavaScript string coercion `String(v)` of a defined value, as
performed by `content += part.text` and `new Error(x)`: arrays join
their elements with commas (nulls becoming empty), objects display as
`[object Object]`. -/
def jsToStringV : Json → String
  | .null => "null"
  | .bool b => cond b "true" "false"
  | .num n => toString n
  | .str s => s
  | .arr xs => String.intercalate "," (jsToStringElems xs)
  | .obj _ => "[object Object]"

/-- Element strings for `Array.prototype.toString`: `null` elements
render as the empty string. -/
def jsToStringElems : List Json → List String
  | [] => []
  | .null :: rest => "" :: jsToStringElems rest
  | j :: rest => jsToStringV j :: jsToStringElems rest

end

/-- JavaScript string coercion of a possibly-undefined value:
`undefined` coerces to the string `"undefined"`. -/
def jsToString : Option Json → String
  | none => "undefined"
  | some v => jsToStringV v

/-- JSON string quoting as in `JSON.stringify`: double quotes, with
backslash escapes for quote, backslash and control characters. -/
def jsonQuoteChar (c : Char) : String :=
  if c = '"' then "\\\""
  else if c = '\\' then "\\\\"
  else if c = '\n' then "\\n"
  else if c = '\t' then "\\t"
  else if c = '\r' then "\\r"
  else if c = '\x08' then "\\b"
  else if c = '\x0c' then "\\f"
  else if c.toNat < 32 then
    "\\u00" ++ String.mk [Nat.digitChar (c.toNat / 16), Nat.digitChar (c.toNat % 16)]
  else String.mk [c]

def jsonQuote (s : String) : String :=
  "\"" ++ String.join (s.data.map jsonQuoteChar) ++ "\""

mutual

/-- `JSON.stringify(v, null, 2)` at current indentation `ind`: two-space
indented pretty printing, `[]` and `\x7b\x7d` for empty composites. -/
def stringifyV (ind : String) : Json → String
  | .null => "null"
  | .bool b => cond b "true" "false"
  | .num n => toString n
  | .str s => jsonQuote s
  | .arr xs =>
    if xs.isEmpty then "[]"
    else
      "[\n" ++ String.intercalate ",\n" (stringifyElems (ind ++ "  ") xs) ++
        "\n" ++ ind ++ "]"
  | .obj fs =>
    if fs.isEmpty then "\x7b\x7d"
    else
      "\x7b\n" ++ String.intercalate ",\n" (stringifyFields (ind ++ "  ") fs) ++
        "\n" ++ ind ++ "\x7d"

def stringifyElems (ind : String) : List Json → List String
  | [] => []
  | x :: xs => (ind ++ stringifyV ind x) :: stringifyElems ind xs

def stringifyFields (ind : String) : List (String × Json) → List String
  | [] => []
  | (k, v) :: fs => (ind ++ jsonQuote k ++ ": " ++ stringifyV ind v) :: stringifyFields ind fs

end

/-- Top-level `JSON.stringify(data, null, 2)`. -/
def stringify (v : Json) : String := stringifyV "" v

/-- Strict equality `v.type === 'message'`-style check for a non-null
receiver (every caller reads `type` only after the receiver survived a
null check): the field is a string equal to `t`. -/
def isTypeStr (item : Json) (t : String) : Bool :=
  match item.lookupField "type" with
  | some (.str s) => s = t
  | _ => false

/-- The result stored by `setResult(\x7b content, reasoning \x7d)`.  Both
fields are JavaScript values: `content` is normally a string
(`some (.str s)`) but, in the `choices` branch, is whatever
`data.choices[0].message.content` holds — possibly `undefined` (`none`).
`reasoning` starts as `null` and may be assigned `item.summary`;
`none` models null/undefined. -/
structure NormalizedResult where
  content : Option Json
  reasoning : Option Json

/-- Test for `Array.isArray(v)` on a possibly-undefined value. -/
def isArrOpt : Option Json → Bool
  | some (.arr _) => true
  | _ => false

/-- Guard of the first branch (App.jsx line 97):
`data.output && Array.isArray(data.output)`, for a non-null `data`
(on null `data` the access itself throws, see `normalize`). -/
def outputShape (data : Json) : Bool :=
  jsTruthy (data.lookupField "output") && isArrOpt (data.lookupField "output")

/-- The elements of an `output` value known to be an array. -/
def itemsOf : Option Json → List Json
  | some (.arr xs) => xs
  | _ => []

/-- The items of the `output` array (empty when the guard fails). -/
def outputItems (data : Json) : List Json :=
  itemsOf (data.lookupField "output")

/-- Guard of the second branch (line 117):
`data.choices && data.choices[0] && data.choices[0].message`, for a
non-null `data`; each chained receiver is truthiness-guarded, so these
reads cannot throw.  Note: the presence of `message.content` is NOT
checked. -/
def choicesShape (data : Json) : Bool :=
  jsTruthy (data.lookupField "choices") &&
    jsTruthy ((data.lookupField "choices").bind Json.index0) &&
    jsTruthy (((data.lookupField "choices").bind Json.index0).bind
      (·.lookupField "message"))

/-- The value `data.choices[0].message.content` read by the second
branch (line 119, receivers truthiness-guarded); may be `undefined`
(`none`). -/
def choicesContent (data : Json) : Option Json :=
  ((((data.lookupField "choices").bind Json.index0).bind
    (·.lookupField "message")).bind (·.lookupField "content"))

/-- Guard of the third branch (line 120): `data.output_text` (truthy),
for a non-null `data`. -/
def outputTextShape (data : Json) : Bool :=
  jsTruthy (data.lookupField "output_text")

/-- Inner loop over `item.content` when it is an array (lines 102-107):
for each part, `part.type` is read — a TypeError on a null part — and
for `part.type === 'output_text'` the value `part.text` is appended
(string-coerced by `+=`). -/
def partsText : List Json → Except TypeError String
  | [] => .ok ""
  | .null :: _ => .error ⟨"type"⟩
  | p :: rest =>
    match partsText rest with
    | .error e => .error e
    | .ok t =>
      .ok ((if isTypeStr p "output_text" then jsToString (p.lookupField "text")
            else "") ++ t)

/-- One iteration of `data.output.forEach(item => ...)` (lines 99-116),
threading the `(content, reasoning)` accumulator.  Reading `item.type`
at line 100 throws a TypeError on a null item; after that read the
item is known non-null and the remaining accesses are safe. -/
def outputStep (acc : String × Option Json) (item : Json) :
    Except TypeError (String × Option Json) :=
  match item with
  | .null => .error ⟨"type"⟩
  | _ =>
    match
      (if isTypeStr item "message" && jsTruthy (item.lookupField "content") then
        match item.lookupField "content" with
        | some (.arr parts) => (partsText parts).map (acc.1 ++ ·)
        | some (.str s) => .ok (acc.1 ++ s)
        | _ => .ok acc.1
      else .ok acc.1) with
    | .error e => .error e
    | .ok c =>
      .ok (c, if isTypeStr item "reasoning" then item.lookupField "summary" else acc.2)

/-- The `forEach` over the output items: a TypeError thrown mid-way
aborts the whole iteration (the accumulated content is discarded, the
handler ends in the catch clause). -/
def outputFold : List Json → String × Option Json →
    Except TypeError (String × Option Json)
  | [], acc => .ok acc
  | item :: rest, acc =>
    match outputStep acc item with
    | .error e => .error e
    | .ok acc2 => outputFold rest acc2

/-- The diagnostic fallback string of line 124. -/
def diagnostic (data : Json) : String :=
  "Could not parse standard response format. Raw Output:\n```json\n" ++
    stringify data ++ "\n```"

/-- Response normalization, translated from App.jsx lines 94-127: the
four-way `if/else if/else if/else` chain over the decoded body.  The
first statement reads `data.output`, which throws a TypeError when the
decoded body is null; a thrown error propagates to the catch clause
(the handler then ends Failed, see `handleResponse`).  In the non-null
case the remaining reads on `data` cannot throw. -/
def normalize (data : Json) : Except TypeError NormalizedResult :=
  match data.read "output" with
  | .error e => .error e
  | .ok out =>
    if jsTruthy out && isArrOpt out then
      (outputFold (itemsOf out) ("", none)).map fun acc => ⟨some (.str acc.1), acc.2⟩
    else if choicesShape data then
      .ok ⟨choicesContent data, none⟩
    else if outputTextShape data then
      .ok ⟨data.lookupField "output_text", none⟩
    else
      .ok ⟨some (.str (diagnostic data)), none⟩

/-- One entry of the `tools` array: `type` together with the optional
`filters.allowed_domains` list. -/
structure ToolSpec where
  type : String
  allowed_domains : Option (List String)
deriving DecidableEq

/-- One entry of the `messages` array sent as the request `input`. -/
structure Message where
  role : String
  content : String
deriving DecidableEq

/-- The JSON body of the fetch call: `\x7b model, tools, input \x7d`. -/
structure OutboundRequest where
  model : String
  tools : List ToolSpec
  input : List Message
deriving DecidableEq

def devUrlInstruction : String :=
  "You are a helpful assistant. Search the provided url and give me the company pain points. Format your response in clean Markdown with headers and bullet points."

def devNameInstruction : String :=
  "You are a helpful assistant. Do web search and give me the company pain points. Format your response in clean Markdown with headers and bullet points."

/-- Request construction, translated from App.jsx lines 30-83.
`parseHostname` abstracts the WHATWG URL parser used by
`new URL(companyUrl).hostname`: `some h` models a successful parse with
hostname `h`, `none` models the `try/catch`-swallowed parse failure, in
which case the raw input string is used as the domain (lines 36-42). -/
def buildRequest (parseHostname : String → Option String)
    (companyName companyUrl : String) : OutboundRequest :=
  if companyUrl ≠ "" then
    let domain := (parseHostname companyUrl).getD companyUrl
    { model := "gpt-5-nano"
      tools := [⟨"web_search", some [domain]⟩]
      input := [⟨"developer", devUrlInstruction⟩,
                ⟨"user", "Find pain points for " ++ companyUrl⟩] }
  else
    { model := "gpt-5-nano"
      tools := [⟨"web_search", none⟩]
      input := [⟨"developer", devNameInstruction⟩,
                ⟨"user", "Find pain points for company: " ++ companyName⟩] }

/-- The component state touched by `handleSearch`: the `result`,
`error` and `loading` `useState` cells. -/
structure AppState where
  result : Option NormalizedResult
  error : Option String
  loading : Bool

/-- The submit-time transition of `handleSearch` up to the fetch call
(App.jsx lines 15-84): the two validation guards in order, then the
state resets and the request build.  The second component is the
transport call made: `none` means the handler returned without any
network activity, `some req` means exactly one fetch with body `req`. -/
def submitStep (parseHostname : String → Option String)
    (apiKey companyName companyUrl : String) (st : AppState) :
    AppState × Option OutboundRequest :=
  if apiKey = "" then
    ({ st with error := some "API Key not found in environment." }, none)
  else if companyName = "" && companyUrl = "" then
    ({ st with error := some "Please provide a company name or URL." }, none)
  else
    ({ result := none, error := none, loading := true },
      some (buildRequest parseHostname companyName companyUrl))

/-- The error message thrown on a non-ok response (line 88):
`errData.error?.message || response.statusText`, with `new Error`
string-coercing a truthy non-string message.  The FIRST access
`errData.error` is a plain read: it throws a TypeError when the decoded
error body is null (optional chaining protects only the `.message`
access after it, modelled by `lookupField`). -/
def errorMessage (errData : Json) (statusText : String) : Except TypeError String :=
  match errData with
  | .null => .error ⟨"error"⟩
  | _ =>
    let m := (errData.lookupField "error").bind (·.lookupField "message")
    .ok (if jsTruthy m then jsToString m else statusText)

/-- Response-time transition (lines 86-133), applied to the
post-dispatch state.  `body` is the JSON-decoded response body: `none`
models a body `response.json()` fails to decode, whose parse error
(message `decodeErrMsg`) is caught by the catch clause.  `tem` is the
engine oracle rendering a thrown TypeError to its message string,
which the catch clause surfaces via `err.message`. -/
def handleResponse (tem : TypeError → String) (ok : Bool) (statusText : String)
    (body : Option Json) (decodeErrMsg : String) (st : AppState) : AppState :=
  match body with
  | none => { st with error := some decodeErrMsg, loading := false }
  | some data =>
    if ok then
      match normalize data with
      | .ok r => { st with result := some r, loading := false }
      | .error e => { st with error := some (tem e), loading := false }
    else
      match errorMessage data statusText with
      | .ok msg => { st with error := some msg, loading := false }
      | .error e => { st with error := some (tem e), loading := false }

/-! ## Controller claims -/

/-- Claim C5 (confirmed): the two validation guards run in order before
any network activity.  An empty credential fails with
"API Key not found in environment." and no transport call; otherwise,
when both name and URL are empty, the submission fails with
"Please provide a company name or URL." and no transport call.  In both
cases only the error cell changes (in particular, when the key guard
fires first, the input guard is never consulted). -/
theorem submit_validation_guards (p : String → Option String)
    (apiKey n u : String) (st : AppState) :
    (apiKey = "" → submitStep p apiKey n u st =
      ({ st with error := some "API Key not found in environment." }, none)) ∧
    (apiKey ≠ "" → n = "" → u = "" → submitStep p apiKey n u st =
      ({ st with error := some "Please provide a company name or URL." }, none)) := by
  constructor
  · intro h
    simp [submitStep, h]
  · intro h h1 h2
    simp [submitStep, h, h1, h2]

/-- Closed instance of `submit_validation_guards`: the empty-key guard
at a non-empty name, and the empty-inputs guard at a non-empty key. -/
theorem submit_validation_guards_witness :
    submitStep (fun _ => none) "" "Tesla" "" ⟨none, none, false⟩ =
      (⟨none, some "API Key not found in environment.", false⟩, none) ∧
    submitStep (fun _ => none) "sk-key" "" "" ⟨none, none, false⟩ =
      (⟨none, some "Please provide a company name or URL.", false⟩, none) :=
  ⟨(submit_validation_guards (fun _ => none) "" "Tesla" "" ⟨none, none, false⟩).1 rfl,
   (submit_validation_guards (fun _ => none) "sk-key" "" "" ⟨none, none, false⟩).2
     (by decide) rfl rfl⟩

/-- Claim C4 is false on the code: with a non-empty key, a non-empty
name AND a non-empty URL, `handleSearch` does not fail validation — it
performs a transport call (the guard only rejects when both inputs are
empty), and the error cell is cleared rather than set. -/
theorem submit_both_inputs_counterexample :
    ((submitStep (fun _ => some "tesla.com") "sk-key" "Tesla" "https://tesla.com"
        ⟨none, none, false⟩).2).isSome = true ∧
    (submitStep (fun _ => some "tesla.com") "sk-key" "Tesla" "https://tesla.com"
        ⟨none, none, false⟩).1.error = none :=
  ⟨rfl, rfl⟩

/-- Claim C4 amended: with a non-empty credential, the submission fails
with "Please provide a company name or URL." and zero transport calls
exactly when BOTH the company name and the company URL are empty; a
submission with both non-empty passes validation. -/
theorem submit_validation_message_iff (p : String → Option String)
    (apiKey n u : String) (st : AppState) (hk : apiKey ≠ "") :
    ((submitStep p apiKey n u st).1.error =
        some "Please provide a company name or URL." ∧
      (submitStep p apiKey n u st).2 = none) ↔ (n = "" ∧ u = "") := by
  by_cases hn : n = "" <;> by_cases hu : u = "" <;>
    simp [submitStep, hk, hn, hu]

/-- Closed instance of `submit_validation_message_iff` at a submission
carrying both a name and a URL: no validation failure occurs. -/
theorem submit_validation_message_iff_witness :
    ((submitStep (fun _ => some "tesla.com") "sk-key" "Tesla" "https://tesla.com"
        ⟨none, none, false⟩).1.error =
          some "Please provide a company name or URL." ∧
      (submitStep (fun _ => some "tesla.com") "sk-key" "Tesla" "https://tesla.com"
        ⟨none, none, false⟩).2 = none) ↔ ("Tesla" = "" ∧ "https://tesla.com" = "") :=
  submit_validation_message_iff (fun _ => some "tesla.com") "sk-key" "Tesla"
    "https://tesla.com" ⟨none, none, false⟩ (by decide)

/-- Claim C9 is false on the code: the prior result is NOT cleared
before validation.  From a state holding a previous result, a
submission that fails the key guard leaves that stale result in place
(`setResult(null)` runs only after both guards pass). -/
theorem submit_stale_result_counterexample :
    (submitStep (fun _ => none) "" "Tesla" ""
        ⟨some ⟨some (.str "old analysis"), none⟩, none, false⟩).1.result ≠ none :=
  fun h => Option.noConfusion h

/-- Claim C9 amended: prior result and error are cleared when
validation passes, before the request is dispatched (whenever a
transport call is made, the new state carries no result and no error);
when the submission fails validation the prior result survives
unchanged, only the error message being replaced. -/
theorem submit_clears_on_dispatch (p : String → Option String)
    (apiKey n u : String) (st : AppState) :
    (((submitStep p apiKey n u st).2).isSome = true →
        (submitStep p apiKey n u st).1.result = none ∧
        (submitStep p apiKey n u st).1.error = none) ∧
    ((submitStep p apiKey n u st).2 = none →
        (submitStep p apiKey n u st).1.result = st.result) := by
  by_cases hk : apiKey = ""
  · simp [submitStep, hk]
  · by_cases hn : n = "" <;> by_cases hu : u = "" <;>
      simp [submitStep, hk, hn, hu]

/-- Closed instance of `submit_clears_on_dispatch`: a dispatching
submission from a state holding a stale result and error clears both. -/
theorem submit_clears_on_dispatch_witness :
    (submitStep (fun _ => none) "sk-key" "Tesla" ""
        ⟨some ⟨some (.str "old analysis"), none⟩, some "old error", false⟩).1.result = none ∧
    (submitStep (fun _ => none) "sk-key" "Tesla" ""
        ⟨some ⟨some (.str "old analysis"), none⟩, some "old error", false⟩).1.error = none :=
  (submit_clears_on_dispatch (fun _ => none) "sk-key" "Tesla" ""
    ⟨some ⟨some (.str "old analysis"), none⟩, some "old error", false⟩).1 rfl

/-- Claim C10 (confirmed): when both the name and the URL are
non-empty, the code takes the URL branch — one transport call is made,
its request is built from the URL (domain-filtered tool, URL user
message), and the company name has no influence on the request. -/
theorem submit_both_inputs_url_precedence (p : String → Option String)
    (apiKey n u : String) (st : AppState)
    (hk : apiKey ≠ "") (hn : n ≠ "") (hu : u ≠ "") :
    (submitStep p apiKey n u st).2 = some (buildRequest p n u) ∧
    (∀ n', buildRequest p n u = buildRequest p n' u) ∧
    (buildRequest p n u).tools = [⟨"web_search", some [(p u).getD u]⟩] ∧
    (buildRequest p n u).input =
      [⟨"developer", devUrlInstruction⟩,
       ⟨"user", "Find pain points for " ++ u⟩] := by
  refine ⟨?_, fun n' => ?_, ?_, ?_⟩ <;> simp [submitStep, buildRequest, hk, hn, hu]

/-- Closed instance of `submit_both_inputs_url_precedence`: name
"Tesla" together with URL "https://tesla.com" dispatches the
URL-built request. -/
theorem submit_both_inputs_url_precedence_witness :
    (submitStep (fun _ => some "tesla.com") "sk-key" "Tesla" "https://tesla.com"
        ⟨none, none, false⟩).2 =
      some (buildRequest (fun _ => some "tesla.com") "Tesla" "https://tesla.com") ∧
    buildRequest (fun _ => some "tesla.com") "Tesla" "https://tesla.com" =
      buildRequest (fun _ => some "tesla.com") "" "https://tesla.com" :=
  ⟨(submit_both_inputs_url_precedence (fun _ => some "tesla.com") "sk-key" "Tesla"
      "https://tesla.com" ⟨none, none, false⟩ (by decide) (by decide) (by decide)).1,
   (submit_both_inputs_url_precedence (fun _ => some "tesla.com") "sk-key" "Tesla"
      "https://tesla.com" ⟨none, none, false⟩ (by decide) (by decide) (by decide)).2.1 ""⟩

/-! ## Request-builder claims -/

/-- Claim C6 (confirmed): for every URL target `u`, request building
never fails.  When `u` parses (`parseHostname u = some h`) the single
web_search tool's allowed_domains filter is the hostname `h`; when it
does not parse the filter is the raw string `u` itself; in both cases
the user message is literally `Find pain points for ` followed by `u`
(the raw input, not the hostname). -/
theorem build_url_request (p : String → Option String) (n u : String) (hu : u ≠ "") :
    (∀ h, p u = some h →
      (buildRequest p n u).tools = [⟨"web_search", some [h]⟩]) ∧
    (p u = none → (buildRequest p n u).tools = [⟨"web_search", some [u]⟩]) ∧
    (buildRequest p n u).input =
      [⟨"developer", devUrlInstruction⟩,
       ⟨"user", "Find pain points for " ++ u⟩] := by
  refine ⟨fun h hp => ?_, fun hp => ?_, ?_⟩
  · simp [buildRequest, hu, hp]
  · simp [buildRequest, hu, hp]
  · simp [buildRequest, hu]

/-- Closed instance of `build_url_request`: a parseable URL filters on
its hostname, an unparseable one on the raw string. -/
theorem build_url_request_witness :
    (buildRequest (fun s => if s = "https://tesla.com" then some "tesla.com" else none)
        "" "https://tesla.com").tools = [⟨"web_search", some ["tesla.com"]⟩] ∧
    (buildRequest (fun _ => none) "" "not a url").tools =
      [⟨"web_search", some ["not a url"]⟩] ∧
    (buildRequest (fun _ => none) "" "not a url").input =
      [⟨"developer", devUrlInstruction⟩,
       ⟨"user", "Find pain points for not a url"⟩] :=
  ⟨(build_url_request (fun s => if s = "https://tesla.com" then some "tesla.com" else none)
      "" "https://tesla.com" (by decide)).1 "tesla.com" (by decide),
   (build_url_request (fun _ => none) "" "not a url" (by decide)).2.1 rfl,
   (build_url_request (fun _ => none) "" "not a url" (by decide)).2.2⟩

/-- Claim C7 (confirmed): every built request has exactly two messages,
a developer message followed by a user message, and exactly one tool;
for a company-name target (empty URL) the tool is an unrestricted
web_search and the user message is `Find pain points for company: `
followed by the name. -/
theorem build_request_shape (p : String → Option String) (n u : String) :
    (buildRequest p n u).input.length = 2 ∧
    (buildRequest p n u).tools.length = 1 ∧
    (buildRequest p n u).input.map Message.role = ["developer", "user"] ∧
    (u = "" →
      (buildRequest p n u).tools = [⟨"web_search", none⟩] ∧
      (buildRequest p n u).input =
        [⟨"developer", devNameInstruction⟩,
         ⟨"user", "Find pain points for company: " ++ n⟩]) := by
  by_cases hu : u = "" <;> simp [buildRequest, hu]

/-- Closed instance of `build_request_shape` at the name target
"Tesla": the unrestricted tool and the name-built user message. -/
theorem build_request_shape_witness :
    (buildRequest (fun _ => none) "Tesla" "").tools = [⟨"web_search", none⟩] ∧
    (buildRequest (fun _ => none) "Tesla" "").input =
      [⟨"developer", devNameInstruction⟩,
       ⟨"user", "Find pain points for company: Tesla"⟩] :=
  (build_request_shape (fun _ => none) "Tesla" "").2.2.2 rfl

/-! ## Error-handling claim -/

/-- A concrete engine oracle for TypeError messages (the V8 wording),
used by closed instances; the quantified theorems hold for every
oracle. -/
def temV8 : TypeError → String :=
  fun e => "TypeError: Cannot read properties of null (reading " ++ e.reading ++ ")"

/-- Claim C8 is false as stated: when the decoded non-ok body is
`null`, the read `errData.error` at line 88 itself throws a TypeError
(optional chaining protects only `.message`), so the catch clause
surfaces the TypeError's message — not the transport's status-line
text, although `error.message` is certainly not decodable from a null
body. -/
theorem error_response_null_counterexample :
    handleResponse temV8 false "Unauthorized" (some .null) "Failed to decode"
        ⟨none, none, true⟩ =
      ⟨none, some (temV8 ⟨"error"⟩), false⟩ ∧
    temV8 ⟨"error"⟩ ≠ "Unauthorized" :=
  ⟨rfl, by decide⟩

/-- Claim C8 amended: on a non-ok response the state becomes Failed
with a message taken from the decoded body's `error.message` field when
that field holds a (non-empty) string; with the transport's status-line
text when the field is absent from a non-null decoded body; with the
caught TypeError's message when the decoded body is null (the
`errData.error` read throws); and with the decode-failure description
when the body cannot be decoded as JSON at all.  Only the error cell
changes besides `loading`. -/
theorem error_response_message (tem : TypeError → String)
    (statusText decodeErr s : String) (errData : Json) (st : AppState) :
    ((errData.lookupField "error").bind (·.lookupField "message") = some (.str s) →
      s ≠ "" →
        handleResponse tem false statusText (some errData) decodeErr st =
          { st with error := some s, loading := false }) ∧
    (errData ≠ .null →
      (errData.lookupField "error").bind (·.lookupField "message") = none →
        handleResponse tem false statusText (some errData) decodeErr st =
          { st with error := some statusText, loading := false }) ∧
    (handleResponse tem false statusText (some .null) decodeErr st =
        { st with error := some (tem ⟨"error"⟩), loading := false }) ∧
    (handleResponse tem false statusText none decodeErr st =
        { st with error := some decodeErr, loading := false }) := by
  refine ⟨fun hm hs => ?_, fun hd hm => ?_, rfl, rfl⟩
  · cases errData with
    | null => simp [Json.lookupField] at hm
    | bool b => simp [Json.lookupField] at hm
    | num n => simp [Json.lookupField] at hm
    | str t => simp [Json.lookupField] at hm
    | arr xs => simp [Json.lookupField] at hm
    | obj fs =>
      simp [handleResponse, errorMessage, hm, jsTruthy, jsToString, jsToStringV, hs]
  · cases errData with
    | null => exact absurd rfl hd
    | bool b => simp [handleResponse, errorMessage, hm, jsTruthy]
    | num n => simp [handleResponse, errorMessage, hm, jsTruthy]
    | str t => simp [handleResponse, errorMessage, hm, jsTruthy]
    | arr xs => simp [handleResponse, errorMessage, hm, jsTruthy]
    | obj fs => simp [handleResponse, errorMessage, hm, jsTruthy]

/-- Closed instance of `error_response_message` at the spec's example:
status 401 with body containing error.message "bad key" fails with
"bad key"; a non-null body with no error object fails with the status
text; an undecodable body fails with the decode error. -/
theorem error_response_message_witness :
    handleResponse temV8 false "Unauthorized" (some (.obj [("error",
        .obj [("message", .str "bad key")])])) "Failed to decode" ⟨none, none, true⟩ =
      ⟨none, some "bad key", false⟩ ∧
    handleResponse temV8 false "Unauthorized" (some (.obj [("data", .num 1)]))
        "Failed to decode" ⟨none, none, true⟩ =
      ⟨none, some "Unauthorized", false⟩ ∧
    handleResponse temV8 false "Unauthorized" none "Failed to decode"
        ⟨none, none, true⟩ =
      ⟨none, some "Failed to decode", false⟩ :=
  ⟨(error_response_message temV8 "Unauthorized" "Failed to decode" "bad key"
      (.obj [("error", .obj [("message", .str "bad key")])]) ⟨none, none, true⟩).1
      rfl (by decide),
   (error_response_message temV8 "Unauthorized" "Failed to decode" ""
      (.obj [("data", .num 1)]) ⟨none, none, true⟩).2.1
      (fun h => Json.noConfusion h) rfl,
   (error_response_message temV8 "Unauthorized" "Failed to decode" ""
      (.obj [("data", .num 1)]) ⟨none, none, true⟩).2.2.2⟩

/-! ## Normalizer claims -/

theorem append_ne_empty_left (a b : String) (ha : a ≠ "") : a ++ b ≠ "" := by
  cases a with
  | mk la =>
    cases b with
    | mk lb =>
      intro h
      have h2 : la ++ lb = [] := congrArg String.data h
      have h3 : la = [] := (List.append_eq_nil.mp h2).1
      exact ha (by rw [h3])

theorem json_read_not_null (data : Json) (hd : data ≠ .null) (k : String) :
    data.read k = .ok (data.lookupField k) := by
  cases data <;> first | exact absurd rfl hd | rfl

theorem normalize_not_null (data : Json) (hd : data ≠ .null) :
    normalize data =
      (if outputShape data then
        (outputFold (outputItems data) ("", none)).map
          fun acc => ⟨some (.str acc.1), acc.2⟩
      else if choicesShape data then .ok ⟨choicesContent data, none⟩
      else if outputTextShape data then .ok ⟨data.lookupField "output_text", none⟩
      else .ok ⟨some (.str (diagnostic data)), none⟩) := by
  simp only [normalize, json_read_not_null data hd]
  rfl

/-- Claim C1 amended: normalize always produces a result for a
non-null body whose iteration meets no null item or part; its content
is a defined string in the output-array branch (whenever that branch
completes) and in the diagnostic fallback; in the `choices` branch the
content is `choices[0].message.content` verbatim, which may be
undefined.  A null body throws a TypeError at the first access
(`data.output`), which the handler catches into a Failed state.  For a
non-null input matching no recognized shape the content is the
non-empty diagnostic string holding the pretty-printed serialization
of the full input, with reasoning unset. -/
theorem normalize_diagnostic_fallback (data : Json) :
    (normalize .null = .error ⟨"output"⟩) ∧
    (outputShape data = true →
        ∀ r, normalize data = .ok r → ∃ s, r.content = some (.str s)) ∧
    (data ≠ .null → outputShape data = false → choicesShape data = true →
        normalize data = .ok ⟨choicesContent data, none⟩) ∧
    (data ≠ .null → outputShape data = false → choicesShape data = false →
      outputTextShape data = false →
        normalize data = .ok ⟨some (.str (diagnostic data)), none⟩ ∧
        diagnostic data ≠ "" ∧
        diagnostic data =
          "Could not parse standard response format. Raw Output:\n```json\n" ++
            stringify data ++ "\n```") := by
  refine ⟨rfl, fun h1 r hr => ?_, fun hd h1 h2 => ?_, fun hd h1 h2 h3 => ⟨?_, ?_, rfl⟩⟩
  · have hd : data ≠ .null := fun he => by rw [he] at h1; exact Bool.noConfusion h1
    rw [normalize_not_null data hd, h1] at hr
    simp only [if_true] at hr
    cases hfold : outputFold (outputItems data) ("", none) with
    | error e => rw [hfold] at hr; exact Except.noConfusion hr
    | ok acc =>
      rw [hfold] at hr
      simp only [Except.map] at hr
      injection hr with hr2
      exact ⟨acc.1, by rw [← hr2]⟩
  · rw [normalize_not_null data hd]
    simp [h1, h2]
  · rw [normalize_not_null data hd]
    simp [h1, h2, h3]
  · exact append_ne_empty_left _ _ (append_ne_empty_left _ _ (by decide))

/-- Claim C1 is false as stated: the content result is NOT always a
defined string.  On `\x7b choices: [\x7b message: \x7b\x7d \x7d] \x7d`
the guard of the choices branch passes (it never looks at `content`),
and the stored content is `undefined` (`none`), not a string. -/
theorem normalize_undefined_content_counterexample :
    normalize (.obj [("choices", .arr [.obj [("message", .obj [])]])]) =
      .ok ⟨none, none⟩ := rfl

/-- Closed instance of `normalize_diagnostic_fallback` at the
unrecognized input `\x7b foo: "bar" \x7d`: the diagnostic fallback with
reasoning unset, non-empty, carrying the serialized input. -/
theorem normalize_diagnostic_fallback_witness :
    normalize (.obj [("foo", .str "bar")]) =
      .ok ⟨some (.str (diagnostic (.obj [("foo", .str "bar")]))), none⟩ ∧
    diagnostic (.obj [("foo", .str "bar")]) ≠ "" ∧
    diagnostic (.obj [("foo", .str "bar")]) =
      "Could not parse standard response format. Raw Output:\n```json\n" ++
        stringify (.obj [("foo", .str "bar")]) ++ "\n```" :=
  (normalize_diagnostic_fallback (.obj [("foo", .str "bar")])).2.2.2
    (fun h => Json.noConfusion h) rfl rfl rfl

/-- A response whose `choices[0].message` exists but carries no
`content` field, together with a top-level `output_text` string. -/
def choicesNoContent : Json :=
  .obj [("choices", .arr [.obj [("message", .obj [("foo", .num 1)])]]),
        ("output_text", .str "Z")]

/-- Claim C2 is false as stated: a response whose `choices[0].message`
exists but has no `content` field DOES match the choices rule — the
guard never checks `content` — so the `output_text` rule is shadowed
and the result content is `undefined`, not the string "Z" the claimed
precedence would produce. -/
theorem normalize_choices_counterexample :
    normalize choicesNoContent = .ok ⟨none, none⟩ ∧
    (⟨none, none⟩ : NormalizedResult) ≠ ⟨some (.str "Z"), none⟩ :=
  ⟨rfl, fun h => Option.noConfusion (congrArg NormalizedResult.content h)⟩

/-- Claim C2 amended: a null body throws a TypeError at the very first
access (`data.output`) before any rule is tested, ending Failed.  For
a non-null body, shape detection follows exactly this precedence,
first match winning: (1) the `output` field is an array (this is
equivalent to the guard `data.output && Array.isArray(data.output)`,
since arrays are truthy) — the iteration itself may still throw on a
null item; (2) `choices`, `choices[0]` and `choices[0].message` are
all truthy — the presence of `message.content` is NOT required, and
the extracted content is that field read verbatim; (3) `output_text`
is truthy; (4) the diagnostic fallback. -/
theorem normalize_shape_precedence (data : Json) :
    (outputShape data = true ↔ ∃ xs, data.lookupField "output" = some (.arr xs)) ∧
    (normalize .null = .error ⟨"output"⟩) ∧
    (outputShape data = true →
        normalize data =
          (outputFold (outputItems data) ("", none)).map
            fun acc => ⟨some (.str acc.1), acc.2⟩) ∧
    (data ≠ .null → outputShape data = false → choicesShape data = true →
        normalize data = .ok ⟨choicesContent data, none⟩) ∧
    (data ≠ .null → outputShape data = false → choicesShape data = false →
      outputTextShape data = true →
        normalize data = .ok ⟨data.lookupField "output_text", none⟩) ∧
    (data ≠ .null → outputShape data = false → choicesShape data = false →
      outputTextShape data = false →
        normalize data = .ok ⟨some (.str (diagnostic data)), none⟩) := by
  refine ⟨?_, rfl, fun h1 => ?_, fun hd h1 h2 => ?_, fun hd h1 h2 h3 => ?_,
    fun hd h1 h2 h3 => ?_⟩
  · unfold outputShape
    cases hv : data.lookupField "output" with
    | none => simp [jsTruthy, isArrOpt]
    | some v => cases v <;> simp [jsTruthy, isArrOpt]
  · have hd : data ≠ .null := fun he => by rw [he] at h1; exact Bool.noConfusion h1
    rw [normalize_not_null data hd, h1]
    simp only [if_true]
  · rw [normalize_not_null data hd]
    simp [h1, h2]
  · rw [normalize_not_null data hd]
    simp [h1, h2, h3]
  · rw [normalize_not_null data hd]
    simp [h1, h2, h3]

/-- Closed instance of `normalize_shape_precedence` at
`choicesNoContent`: the choices rule wins over `output_text` and the
content is read verbatim (here: `undefined`). -/
theorem normalize_shape_precedence_witness :
    normalize choicesNoContent = .ok ⟨choicesContent choicesNoContent, none⟩ ∧
    choicesContent choicesNoContent = none :=
  ⟨(normalize_shape_precedence choicesNoContent).2.2.2.1
    (fun h => Json.noConfusion h) rfl rfl, rfl⟩

/-! ### Claim C3: spec-side accumulation

The following `spec...` definitions transcribe the extraction rule of
the spec's table (and of claim C3) word by word, to be compared with
the `normalize` fold translated from the source: iterate items in
order; a message item with sequence content contributes the `text` of
its output_text sub-items in order, a message item with string content
contributes that string; a reasoning item overwrites `reasoning` with
its `summary`, last one winning. -/

/-- The `text` of an output_text sub-item (spec-side). -/
def specPartText (p : Json) : String :=
  match p.lookupField "text" with
  | some (.str t) => t
  | _ => ""

/-- Concatenation of the texts of the output_text sub-items, in order
(spec-side). -/
def specPartsText : List Json → String
  | [] => ""
  | p :: rest =>
    (if isTypeStr p "output_text" then specPartText p else "") ++ specPartsText rest

/-- The content contribution of one item (spec-side): message items
with sequence content contribute their parts' texts, message items
with string content contribute that string, everything else nothing. -/
def specItemText (item : Json) : String :=
  if isTypeStr item "message" then
    match item.lookupField "content" with
    | some (.arr parts) => specPartsText parts
    | some (.str s) => s
    | _ => ""
  else ""

/-- Accumulated content over the items, in order (spec-side). -/
def specContentFrom (c : String) : List Json → String
  | [] => c
  | item :: rest => specContentFrom (c ++ specItemText item) rest

/-- Reasoning over the items: each reasoning item overwrites it with
its `summary`, so the last one wins (spec-side). -/
def specReasoningFrom (r : Option Json) : List Json → Option Json
  | [] => r
  | item :: rest =>
    specReasoningFrom
      (if isTypeStr item "reasoning" then item.lookupField "summary" else r) rest

/-- Well-formedness of the output_text sub-items of one content array:
no null part (reading `part.type` on null throws a TypeError) and each
output_text part carries a string `text`.  (Without the latter the
source coerces a missing or non-string `text` through `+=`, which the
claim does not describe.) -/
def wfParts : List Json → Bool
  | [] => true
  | .null :: _ => false
  | p :: rest =>
    (!isTypeStr p "output_text" ||
      (match p.lookupField "text" with
       | some (.str _) => true
       | _ => false)) && wfParts rest

/-- Well-formedness of one output item: not null (reading `item.type`
on null throws a TypeError), and if it is a message item whose content
is an array, that array's parts are well-formed. -/
def wfItem : Json → Bool
  | .null => false
  | item =>
    match item.lookupField "content" with
    | some (.arr parts) => !isTypeStr item "message" || wfParts parts
    | _ => true

def wfItems : List Json → Bool
  | [] => true
  | item :: rest => wfItem item && wfItems rest

theorem json_null_cases (p : Json) (C : Prop) (hnull : p = .null → C)
    (hnot : p ≠ .null → C) : C := by
  cases p
  · exact hnull rfl
  all_goals exact hnot (fun h => Json.noConfusion h)

theorem wfParts_cons (p : Json) (rest : List Json) (hp : p ≠ .null) :
    wfParts (p :: rest) =
      ((!isTypeStr p "output_text" ||
        (match p.lookupField "text" with
         | some (.str _) => true
         | _ => false)) && wfParts rest) := by
  cases p <;> first | exact absurd rfl hp | rfl

theorem partsText_cons (p : Json) (rest : List Json) (hp : p ≠ .null) :
    partsText (p :: rest) =
      (match partsText rest with
       | .error e => .error e
       | .ok t =>
         .ok ((if isTypeStr p "output_text" then jsToString (p.lookupField "text")
               else "") ++ t)) := by
  cases p <;> first | exact absurd rfl hp | rfl

theorem wfItem_not_null (item : Json) (hi : item ≠ .null) :
    wfItem item =
      (match item.lookupField "content" with
       | some (.arr parts) => !isTypeStr item "message" || wfParts parts
       | _ => true) := by
  cases item <;> first | exact absurd rfl hi | rfl

theorem outputStep_not_null (acc : String × Option Json) (item : Json)
    (hi : item ≠ .null) :
    outputStep acc item =
      (match
        (if isTypeStr item "message" && jsTruthy (item.lookupField "content") then
          match item.lookupField "content" with
          | some (.arr parts) => (partsText parts).map (acc.1 ++ ·)
          | some (.str s) => .ok (acc.1 ++ s)
          | _ => .ok acc.1
        else .ok acc.1) with
      | .error e => .error e
      | .ok c =>
        .ok (c, if isTypeStr item "reasoning" then item.lookupField "summary"
                else acc.2)) := by
  cases item <;> first | exact absurd rfl hi | rfl

theorem partsText_eq_spec (parts : List Json) (h : wfParts parts = true) :
    partsText parts = .ok (specPartsText parts) := by
  induction parts with
  | nil => rfl
  | cons p rest ih =>
    refine json_null_cases p _ (fun hp => ?_) (fun hp => ?_)
    · subst hp; exact Bool.noConfusion h
    · rw [wfParts_cons p rest hp, Bool.and_eq_true] at h
      rw [partsText_cons p rest hp, ih h.2]
      simp only [specPartsText]
      congr 2
      by_cases ht : isTypeStr p "output_text" = true
      · have h1 := h.1
        rw [ht] at h1
        simp only [Bool.not_true, Bool.false_or] at h1
        cases hx : p.lookupField "text" with
        | none => rw [hx] at h1; exact Bool.noConfusion h1
        | some v =>
          cases v <;> rw [hx] at h1 <;> first
            | exact Bool.noConfusion h1
            | simp [ht, jsToString, jsToStringV, specPartText, hx]
      · simp [ht]

theorem outputStep_eq_spec (acc : String × Option Json) (item : Json)
    (h : wfItem item = true) :
    outputStep acc item =
      .ok (acc.1 ++ specItemText item,
        if isTypeStr item "reasoning" then item.lookupField "summary" else acc.2) := by
  refine json_null_cases item _ (fun hi => ?_) (fun hi => ?_)
  · subst hi; exact Bool.noConfusion h
  · rw [outputStep_not_null acc item hi]
    rw [wfItem_not_null item hi] at h
    unfold specItemText
    by_cases hmsg : isTypeStr item "message" = true
    · cases hx : item.lookupField "content" with
      | none => simp [hmsg, hx, jsTruthy, String.append_empty]
      | some v =>
        cases v with
        | arr parts =>
          rw [hx] at h
          simp only [hmsg, Bool.not_true, Bool.false_or] at h
          simp [hmsg, hx, jsTruthy, partsText_eq_spec parts h, Except.map]
        | str s =>
          by_cases hs : s = ""
          · simp [hmsg, hx, hs, jsTruthy, String.append_empty]
          · simp [hmsg, hx, hs, jsTruthy]
        | null => simp [hmsg, hx, jsTruthy, String.append_empty]
        | bool b => cases b <;> simp [hmsg, hx, jsTruthy, String.append_empty]
        | num n => simp [hmsg, hx, jsTruthy, String.append_empty]
        | obj fs => simp [hmsg, hx, jsTruthy, String.append_empty]
    · simp [hmsg, String.append_empty]

theorem outputFold_eq_spec (items : List Json) :
    ∀ (c : String) (r : Option Json), wfItems items = true →
      outputFold items (c, r) =
        .ok (specContentFrom c items, specReasoningFrom r items) := by
  induction items with
  | nil => intro c r _; rfl
  | cons item rest ih =>
    intro c r h
    rw [wfItems, Bool.and_eq_true] at h
    rw [outputFold, outputStep_eq_spec (c, r) item h.1]
    exact ih _ _ h.2

/-- Claim C3 (confirmed): for every input whose `output` field is an
array of well-formed items — no null item or part (those throw a
TypeError instead of being iterated) and string texts in output_text
parts — normalize accumulates content by iterating the items in
order: message items with sequence content contribute the texts of
their output_text sub-items in order, message items with string
content contribute that string; and reasoning is the summary of the
last reasoning item. -/
theorem normalize_output_accumulation (data : Json) (items : List Json)
    (hout : data.lookupField "output" = some (.arr items))
    (hwf : wfItems items = true) :
    normalize data =
      .ok ⟨some (.str (specContentFrom "" items)), specReasoningFrom none items⟩ := by
  have hd : data ≠ .null := by
    intro he; rw [he] at hout; exact Option.noConfusion hout
  have hshape : outputShape data = true := by
    simp [outputShape, hout, jsTruthy, isArrOpt]
  rw [normalize_not_null data hd, hshape]
  simp only [if_true]
  rw [outputItems, hout]
  simp only [itemsOf]
  rw [outputFold_eq_spec items "" none hwf]
  rfl

/-- The spec's round-trip example: one message item with two
output_text parts "Hello, " and "world.". -/
def helloItems : List Json :=
  [.obj [("type", .str "message"),
         ("content", .arr
           [.obj [("type", .str "output_text"), ("text", .str "Hello, ")],
            .obj [("type", .str "output_text"), ("text", .str "world.")]])]]

def helloInput : Json := .obj [("output", .arr helloItems)]

/-- Closed instance of `normalize_output_accumulation` at the spec's
round-trip example: content "Hello, world.", reasoning unset. -/
theorem normalize_output_accumulation_witness :
    wfItems helloItems = true ∧
    normalize helloInput = .ok ⟨some (.str "Hello, world."), none⟩ :=
  ⟨rfl, by rw [normalize_output_accumulation helloInput helloItems rfl rfl]; exact rfl⟩

end PainPoints
